import Mathlib

/-!
Shallow embedding of the mcrcon-go RCON client core (src/mcrcon/client.go,
src/mcrcon/constants.go, src/mcrcon/packet.go, and the legacy copy in
src/main.go, whose core functions are byte-for-byte identical).

Go byte slices are modelled as `List Nat` (each element a byte value),
Go `int32` values as `Int` together with explicit two's-complement
conversions (`uint32Of` for Go's `uint32(x)` cast, `int32OfNat` for Go's
`int32(binary.LittleEndian.Uint32 ...)` read).  Network streams are
modelled as the list of bytes the connection will deliver; reads consume a
prefix of that list.  Side effects on the connection (deadline management,
read attempts) are recorded as explicit event traces.
-/

namespace MCRcon

/-- Constants from src/mcrcon/constants.go. -/
def dataBuffSize : Nat := 4096

/-- rconPID = 0xBADC0DE, the fixed correlation identifier. -/
def rconPID : Int := 0xBADC0DE

/-- Packet type constants from src/mcrcon/packet.go. -/
def rconExecCommand : Int := 2

def rconAuthenticate : Int := 3

/-- Go's `uint32(x)` cast of an `int32` value: reduce mod 2^32. -/
def uint32Of (x : Int) : Nat := (x % 4294967296).toNat

/-- Go's `int32(u)` view of a `uint32` value: two's-complement reinterpretation. -/
def int32OfNat (n : Nat) : Int :=
  if n < 2147483648 then (n : Int) else (n : Int) - 4294967296

/-- Go's `binary.LittleEndian.PutUint32`: the four little-endian bytes of `n`. -/
def le32 (n : Nat) : List Nat :=
  [n % 256, n / 256 % 256, n / 65536 % 256, n / 16777216 % 256]

/-- Go's `binary.LittleEndian.Uint32` on a 4-byte slice. -/
def leDecList : List Nat → Nat
  | [b0, b1, b2, b3] => b0 + 256 * b1 + 65536 * b2 + 16777216 * b3
  | _ => 0

/-- RCONPacket from src/mcrcon/packet.go (Body held as raw bytes). -/
structure RCONPacket where
  Size : Int
  ID : Int
  PType : Int  -- source field name `Type` is a Lean keyword
  Body : List Nat
  deriving Repr, DecidableEq

/-- Config from the repository (password held as raw bytes). -/
structure Config where
  Host : String
  Port : String
  Password : List Nat
  TerminalMode : Bool
  SilentMode : Bool
  DisableColors : Bool
  RawOutput : Bool
  WaitSeconds : Nat
  deriving Repr

/-- The byte buffer built and written by `sendPacket` (client.go:182-198):
size = 4 + 4 + len(body) + 2 as a little-endian uint32 (the `int32` then
`uint32` casts compose to reduction mod 2^32), then the id and type as
little-endian uint32 casts, the body bytes, and the two zero terminator
bytes left in the buffer. -/
def sendPacketBytes (id ptype : Int) (body : List Nat) : List Nat :=
  le32 ((4 + 4 + body.length + 2) % 4294967296) ++
    le32 (uint32Of id) ++ le32 (uint32Of ptype) ++ body ++ [0, 0]

/-- Observable actions `receivePacket` performs on the connection. -/
inductive ConnEvent where
  | setReadDeadline (secs : Nat)
  | clearReadDeadline
  | readAttempt (n : Nat)
  deriving Repr, DecidableEq

/-- Failure modes of `receivePacket`. -/
inductive RecvErr where
  | headerReadFailed
  | invalidSize (size : Int)
  | truncatedPayload
  deriving Repr, DecidableEq

/-- Function `receivePacket` (client.go:201-237), on a stream `s` of pending bytes.
Sets a 10-second read deadline, reads 4 bytes as a little-endian `int32`
size, validates `10 ≤ size ≤ 4096`, reads `size` further bytes
(`io.ReadFull`), parses id and type as little-endian `int32`, takes the
body as payload bytes 8 through `8 + (size - 10)`, and clears the deadline
(deferred) on every path.  Returns the parse result together with the
unread remainder of the stream, and the trace of connection events. -/
def receivePacket (s : List Nat) :
    Except RecvErr (RCONPacket × List Nat) × List ConnEvent :=
  let core : Except RecvErr (RCONPacket × List Nat) × List ConnEvent :=
    if 4 ≤ s.length then
      let size : Int := int32OfNat (leDecList (s.take 4))
      let rest := s.drop 4
      if size < 10 ∨ size > (dataBuffSize : Int) then
        (.error (.invalidSize size), [.readAttempt 4])
      else if size.toNat ≤ rest.length then
        let payload := rest.take size.toNat
        let id := int32OfNat (leDecList (payload.take 4))
        let ptype := int32OfNat (leDecList ((payload.drop 4).take 4))
        let bodySize := size.toNat - 10
        let body := (payload.drop 8).take bodySize
        (.ok (⟨size, id, ptype, body⟩, rest.drop size.toNat),
          [.readAttempt 4, .readAttempt size.toNat])
      else
        (.error .truncatedPayload, [.readAttempt 4, .readAttempt size.toNat])
    else
      (.error .headerReadFailed, [.readAttempt 4])
  (core.1, .setReadDeadline 10 :: core.2 ++ [.clearReadDeadline])

/-! ### Codec arithmetic lemmas -/

theorem leDecList_le32 (n : Nat) (h : n < 4294967296) :
    leDecList (le32 n) = n := by
  simp only [le32, leDecList]
  omega

theorem int32_uint32_id (x : Int) (hlo : -2147483648 ≤ x) (hhi : x < 2147483648) :
    int32OfNat (uint32Of x) = x := by
  unfold int32OfNat uint32Of
  have hmod : x % 4294967296 = if 0 ≤ x then x else x + 4294967296 := by
    split <;> omega
  rw [hmod]
  split
  · rw [Int.toNat_of_nonneg (by omega)]
    split <;> omega
  · rw [Int.toNat_of_nonneg (by omega)]
    split <;> omega

theorem uint32Of_lt (x : Int) : uint32Of x < 4294967296 := by
  unfold uint32Of
  have h1 : 0 ≤ x % 4294967296 := Int.emod_nonneg x (by norm_num)
  have h2 : x % 4294967296 < 4294967296 := Int.emod_lt_of_pos x (by norm_num)
  omega

theorem le32_length (n : Nat) : (le32 n).length = 4 := by
  simp [le32]

theorem take4_of_append (l r : List Nat) (h : l.length = 4) : (l ++ r).take 4 = l := by
  rw [← h, List.take_left]

theorem drop4_of_append (l r : List Nat) (h : l.length = 4) : (l ++ r).drop 4 = r := by
  rw [← h, List.drop_left]

/-- Behaviour of `receivePacket` on a stream that starts with a well-formed
header: a declared size `szN` in range followed by exactly `szN` payload
bytes and then the rest of the stream. -/
theorem receivePacket_wellformed (szN : Nat) (payload rest2 : List Nat)
    (h1 : 10 ≤ szN) (h2 : szN ≤ 4096) (hp : payload.length = szN) :
    receivePacket (le32 szN ++ (payload ++ rest2)) =
      (.ok (⟨(szN : Int), int32OfNat (leDecList (payload.take 4)),
             int32OfNat (leDecList ((payload.drop 4).take 4)),
             (payload.drop 8).take (szN - 10)⟩, rest2),
       [.setReadDeadline 10, .readAttempt 4, .readAttempt szN,
        .clearReadDeadline]) := by
  have hlen : 4 ≤ (le32 szN ++ (payload ++ rest2)).length := by
    simp [le32_length]
  have htake : (le32 szN ++ (payload ++ rest2)).take 4 = le32 szN :=
    take4_of_append _ _ (le32_length szN)
  have hdrop : (le32 szN ++ (payload ++ rest2)).drop 4 = payload ++ rest2 :=
    drop4_of_append _ _ (le32_length szN)
  have hdec : leDecList (le32 szN) = szN := leDecList_le32 szN (by omega)
  have hsize : int32OfNat szN = (szN : Int) := by
    unfold int32OfNat
    rw [if_pos (by omega)]
  have hguard : ¬((szN : Int) < 10 ∨ (szN : Int) > (dataBuffSize : Int)) := by
    unfold dataBuffSize
    push_neg
    constructor <;> [exact_mod_cast h1; exact_mod_cast h2]
  have htn : ((szN : Int)).toNat = szN := Int.toNat_natCast szN
  have hple : szN ≤ (payload ++ rest2).length := by
    simp [hp]
  have hpt : (payload ++ rest2).take szN = payload := by
    rw [← hp, List.take_left]
  have hpd : (payload ++ rest2).drop szN = rest2 := by
    rw [← hp, List.drop_left]
  unfold receivePacket
  simp only [hlen, if_pos, htake, hdrop, hdec, hsize, if_neg hguard, htn,
    if_pos hple, hpt, hpd]
  rfl

/-- C1: For every id, type, and body with byte length at most 4086,
decoding the byte buffer produced by the `sendPacket` encoding with the
`receivePacket` parser reconstructs the original id, type, and body
exactly, consuming the whole buffer. -/
theorem sendPacket_receivePacket_roundtrip (id ptype : Int) (body : List Nat)
    (hid1 : -2147483648 ≤ id) (hid2 : id < 2147483648)
    (hty1 : -2147483648 ≤ ptype) (hty2 : ptype < 2147483648)
    (hbytes : ∀ b ∈ body, b < 256) (hlen : body.length ≤ 4086) :
    (receivePacket (sendPacketBytes id ptype body)).1 =
      .ok (⟨((10 + body.length : Nat) : Int), id, ptype, body⟩, ([] : List Nat)) := by
  have hsz : (4 + 4 + body.length + 2) % 4294967296 = 10 + body.length := by
    omega
  have hs : sendPacketBytes id ptype body =
      le32 (10 + body.length) ++
        ((le32 (uint32Of id) ++ (le32 (uint32Of ptype) ++ (body ++ [0, 0])))) := by
    unfold sendPacketBytes
    rw [hsz]
    simp [List.append_assoc]
  have hplen : (le32 (uint32Of id) ++
      (le32 (uint32Of ptype) ++ (body ++ [0, 0]))).length = 10 + body.length := by
    simp [le32_length]
    omega
  have h := receivePacket_wellformed (10 + body.length)
    (le32 (uint32Of id) ++ (le32 (uint32Of ptype) ++ (body ++ [0, 0]))) []
    (by omega) (by omega) hplen
  rw [List.append_nil] at h
  rw [hs, h]
  have ht4 : (le32 (uint32Of id) ++
      (le32 (uint32Of ptype) ++ (body ++ [0, 0]))).take 4 = le32 (uint32Of id) :=
    take4_of_append _ _ (le32_length _)
  have hd4 : (le32 (uint32Of id) ++
      (le32 (uint32Of ptype) ++ (body ++ [0, 0]))).drop 4 =
      le32 (uint32Of ptype) ++ (body ++ [0, 0]) :=
    drop4_of_append _ _ (le32_length _)
  have ht4b : (le32 (uint32Of ptype) ++ (body ++ [0, 0])).take 4 =
      le32 (uint32Of ptype) := take4_of_append _ _ (le32_length _)
  have hd8 : (le32 (uint32Of id) ++
      (le32 (uint32Of ptype) ++ (body ++ [0, 0]))).drop 8 = body ++ [0, 0] := by
    have : (8 : Nat) = 4 + 4 := rfl
    rw [this, ← List.drop_drop, hd4, drop4_of_append _ _ (le32_length _)]
  have hbody : (body ++ [0, 0]).take (10 + body.length - 10) = body := by
    simp
  have hidv : int32OfNat (leDecList (le32 (uint32Of id))) = id := by
    rw [leDecList_le32 _ (uint32Of_lt id)]
    exact int32_uint32_id id hid1 hid2
  have htyv : int32OfNat (leDecList (le32 (uint32Of ptype))) = ptype := by
    rw [leDecList_le32 _ (uint32Of_lt ptype)]
    exact int32_uint32_id ptype hty1 hty2
  simp only [ht4, hd4, ht4b, hd8, hbody, hidv, htyv]

/-- C1 witness: concrete round trip at id = rconPID, type = 2, body "hi". -/
theorem sendPacket_receivePacket_roundtrip_witness :
    (receivePacket (sendPacketBytes rconPID rconExecCommand [104, 105])).1 =
      .ok (⟨(12 : Int), rconPID, rconExecCommand, [104, 105]⟩, ([] : List Nat)) := by
  have h := sendPacket_receivePacket_roundtrip rconPID rconExecCommand [104, 105]
    (by decide) (by decide) (by decide) (by decide)
    (by decide) (by decide)
  simpa using h

/-- C3: If the 4-byte header decodes to a size with size < 10 or
size > 4096, `receivePacket` fails with the out-of-range-size error having
read only the 4 header bytes; if 10 ≤ size ≤ 4096 it proceeds to attempt a
read of exactly `size` further bytes. -/
theorem receivePacket_size_validation (s : List Nat) (size : Int)
    (h4 : 4 ≤ s.length)
    (hsz : size = int32OfNat (leDecList (s.take 4))) :
    (size < 10 ∨ size > 4096 →
      receivePacket s = (.error (.invalidSize size),
        [.setReadDeadline 10, .readAttempt 4, .clearReadDeadline]))
    ∧ (10 ≤ size → size ≤ 4096 →
      (receivePacket s).2 = [.setReadDeadline 10, .readAttempt 4,
        .readAttempt size.toNat, .clearReadDeadline]) := by
  subst hsz
  constructor
  · intro hout
    unfold receivePacket dataBuffSize
    rw [if_pos h4, if_pos (by exact_mod_cast hout)]
    rfl
  · intro hlo hhi
    have hguard : ¬(int32OfNat (leDecList (s.take 4)) < 10 ∨
        int32OfNat (leDecList (s.take 4)) > ((4096 : Nat) : Int)) := by
      push_neg
      exact ⟨hlo, by exact_mod_cast hhi⟩
    unfold receivePacket dataBuffSize
    rw [if_pos h4, if_neg hguard]
    by_cases hle : (int32OfNat (leDecList (s.take 4))).toNat ≤ (s.drop 4).length
    · rw [if_pos hle]
      rfl
    · rw [if_neg hle]
      rfl

/-- C3 witness: header [5,0,0,0] declares size 5 < 10 and is rejected with
only the header read; header [12,0,0,0] declares size 12 and leads to a
read attempt of exactly 12 bytes. -/
theorem receivePacket_size_validation_witness :
    receivePacket [5, 0, 0, 0] = (.error (.invalidSize 5),
        [.setReadDeadline 10, .readAttempt 4, .clearReadDeadline]) ∧
      (receivePacket [12, 0, 0, 0]).2 = [.setReadDeadline 10, .readAttempt 4,
        .readAttempt 12, .clearReadDeadline] := by
  constructor
  · exact (receivePacket_size_validation [5, 0, 0, 0] 5 (by decide)
      (by decide)).1 (Or.inl (by decide))
  · exact (receivePacket_size_validation [12, 0, 0, 0] 12 (by decide)
      (by decide)).2 (by decide) (by decide)

/-- C9: Every call to `receivePacket` first sets the 10-second read
deadline, performs only read attempts in between, and clears the deadline
as its final connection action on every exit path. -/
theorem receivePacket_deadline_scoped (s : List Nat) :
    ∃ reads, (receivePacket s).2 =
        ConnEvent.setReadDeadline 10 :: (reads ++ [ConnEvent.clearReadDeadline]) ∧
      ∀ e ∈ reads, ∃ n, e = ConnEvent.readAttempt n := by
  unfold receivePacket
  by_cases h4 : 4 ≤ s.length
  · rw [if_pos h4]
    by_cases hguard : int32OfNat (leDecList (s.take 4)) < 10 ∨
        int32OfNat (leDecList (s.take 4)) > (dataBuffSize : Int)
    · rw [if_pos hguard]
      exact ⟨[.readAttempt 4], rfl, by simp⟩
    · rw [if_neg hguard]
      by_cases hle : (int32OfNat (leDecList (s.take 4))).toNat ≤ (s.drop 4).length
      · rw [if_pos hle]
        refine ⟨[.readAttempt 4,
          .readAttempt (int32OfNat (leDecList (s.take 4))).toNat], rfl, ?_⟩
        intro e he
        fin_cases he
        exacts [⟨4, rfl⟩, ⟨_, rfl⟩]
      · rw [if_neg hle]
        refine ⟨[.readAttempt 4,
          .readAttempt (int32OfNat (leDecList (s.take 4))).toNat], rfl, ?_⟩
        intro e he
        fin_cases he
        exacts [⟨4, rfl⟩, ⟨_, rfl⟩]
  · rw [if_neg h4]
    exact ⟨[.readAttempt 4], rfl, by simp⟩

/-! ### ExecuteCommand and Authenticate (client.go:63-117) -/

/-- Failure modes of `ExecuteCommand`. -/
inductive CmdError where
  | tooLong (n : Nat)
  | recvFailed (e : RecvErr)
  | invalidResponseID
  deriving Repr, DecidableEq

/-- Observable outcome of one `ExecuteCommand` call: the result, the bytes
written to the connection, the body handed to `printResponse` (if any),
and the connection events of the receive. -/
structure ExecOut where
  result : Except CmdError Unit
  sent : List Nat
  displayed : Option (List Nat)
  connEvents : List ConnEvent
  deriving Repr

/-- Method `ExecuteCommand` (client.go:87-117) on a command (as bytes) and the
stream `s` of bytes the server will deliver: rejects commands with
`len(command) >= dataBuffSize`; otherwise sends a packet with id `rconPID`
and type `rconExecCommand`, receives one packet, fails on a response id
different from `rconPID`, and otherwise displays a nonempty body unless in
silent mode. -/
def executeCommand (cfg : Config) (command : List Nat) (s : List Nat) : ExecOut :=
  if dataBuffSize ≤ command.length then
    ⟨.error (.tooLong command.length), [], none, []⟩
  else
    let sent := sendPacketBytes rconPID rconExecCommand command
    match receivePacket s with
    | (.error e, evs) => ⟨.error (.recvFailed e), sent, none, evs⟩
    | (.ok (resp, _), evs) =>
      if resp.ID ≠ rconPID then
        ⟨.error .invalidResponseID, sent, none, evs⟩
      else
        ⟨.ok (), sent,
          if ¬cfg.SilentMode ∧ 0 < resp.Body.length then some resp.Body else none,
          evs⟩

/-- Failure modes of `Authenticate`. -/
inductive AuthError where
  | recvFailed (e : RecvErr)
  | rejected
  deriving Repr, DecidableEq

/-- Observable outcome of one `Authenticate` call. -/
structure AuthOut where
  result : Except AuthError Unit
  sent : List Nat
  deriving Repr

/-- Method `Authenticate` (client.go:63-84): sends a packet with id `rconPID`,
type `rconAuthenticate` and the configured password as body, receives one
packet, and fails with the rejection error exactly when the response id is
-1. -/
def authenticate (cfg : Config) (s : List Nat) : AuthOut :=
  let sent := sendPacketBytes rconPID rconAuthenticate cfg.Password
  match receivePacket s with
  | (.error e, _) => ⟨.error (.recvFailed e), sent⟩
  | (.ok (resp, _), _) =>
    if resp.ID = -1 then ⟨.error .rejected, sent⟩ else ⟨.ok (), sent⟩

/-- A concrete configuration used for closed-form witnesses. -/
def cfgEx : Config :=
  ⟨"localhost", "25575", [112, 119], false, false, false, false, 0⟩

theorem sendPacketBytes_take4 (id t : Int) (body : List Nat) :
    (sendPacketBytes id t body).take 4 =
      le32 ((4 + 4 + body.length + 2) % 4294967296) := by
  unfold sendPacketBytes
  rw [List.append_assoc, List.append_assoc, List.append_assoc]
  exact take4_of_append _ _ (le32_length _)

theorem sendPacketBytes_idfield (id t : Int) (body : List Nat) :
    ((sendPacketBytes id t body).drop 4).take 4 = le32 (uint32Of id) := by
  unfold sendPacketBytes
  rw [List.append_assoc, List.append_assoc, List.append_assoc,
    drop4_of_append _ _ (le32_length _)]
  rw [← List.append_assoc, ← List.append_assoc, List.append_assoc, List.append_assoc]
  exact take4_of_append _ _ (le32_length _)

theorem sendPacketBytes_length (id t : Int) (body : List Nat) :
    (sendPacketBytes id t body).length = 14 + body.length := by
  simp [sendPacketBytes, le32_length]
  omega

/-- Whatever the receive outcome, an accepted command is sent as the
`sendPacket` buffer for id `rconPID` and type `rconExecCommand`. -/
theorem executeCommand_sent (cfg : Config) (command s : List Nat)
    (h : command.length < 4096) :
    (executeCommand cfg command s).sent =
      sendPacketBytes rconPID rconExecCommand command := by
  unfold executeCommand
  rw [if_neg (by unfold dataBuffSize; omega)]
  rcases hr : receivePacket s with ⟨res, evs⟩
  cases res with
  | error e => rfl
  | ok pr =>
    rcases pr with ⟨resp, rest⟩
    dsimp only
    split
    · rfl
    · rfl

/-- C4: A command of byte length ≥ 4096 makes `ExecuteCommand` fail with
the command-too-long error with nothing written to the transport, nothing
displayed, and no connection activity at all. -/
theorem executeCommand_tooLong (cfg : Config) (command s : List Nat)
    (h : 4096 ≤ command.length) :
    executeCommand cfg command s =
      ⟨.error (.tooLong command.length), [], none, []⟩ := by
  unfold executeCommand dataBuffSize
  rw [if_pos h]

/-- C4 witness: a command of length exactly 4096 is rejected untouched. -/
theorem executeCommand_tooLong_witness :
    executeCommand cfgEx (List.replicate 4096 97) [] =
      ⟨.error (.tooLong 4096), [], none, []⟩ := by
  have h := executeCommand_tooLong cfgEx (List.replicate 4096 97) []
    (by simp only [List.length_replicate, le_refl])
  rw [List.length_replicate] at h
  exact h

/-- C2 counterexample: the command of 4087 bytes 'a' is accepted by
`ExecuteCommand` (a send happens), yet its body has 4087 > 4086 bytes and
the declared size field of the sent packet is 4097 > 4096. -/
theorem executeCommand_size_cap_counterexample :
    (executeCommand cfgEx (List.replicate 4087 97) []).sent ≠ [] ∧
      ¬((List.replicate (4087 : Nat) (97 : Nat)).length ≤ 4086) ∧
      int32OfNat (leDecList
        ((executeCommand cfgEx (List.replicate 4087 97) []).sent.take 4)) = 4097 ∧
      ¬((4097 : Int) ≤ 4096) := by
  have hsent := executeCommand_sent cfgEx (List.replicate 4087 97) []
    (by simp only [List.length_replicate]; omega)
  refine ⟨?_, by simp only [List.length_replicate]; omega, ?_, by norm_num⟩
  · rw [hsent]
    simp only [sendPacketBytes, le32, List.cons_append]
    exact fun hcontra => List.noConfusion hcontra
  · rw [hsent, sendPacketBytes_take4]
    have h1 : ((4 : Nat) + 4 + (List.replicate (4087 : Nat) (97 : Nat)).length + 2) %
        4294967296 = 4097 := by
      simp only [List.length_replicate]
    rw [h1, leDecList_le32 4097 (by norm_num)]
    unfold int32OfNat
    rw [if_pos (by norm_num)]
    norm_num

/-- C2 amended: every command accepted by `ExecuteCommand` has byte length
at most 4095 (not 4086), so the outgoing packet's declared size field is
10 + len(command), which is at most 4105 and can exceed the 4096-byte
total packet cap. -/
theorem executeCommand_accepted_size_bound (cfg : Config) (command s : List Nat)
    (h : command.length < 4096) :
    (executeCommand cfg command s).sent.length = 14 + command.length ∧
      int32OfNat (leDecList ((executeCommand cfg command s).sent.take 4)) =
        ((10 + command.length : Nat) : Int) ∧
      command.length ≤ 4095 ∧ 10 + command.length ≤ 4105 := by
  have hsent := executeCommand_sent cfg command s h
  refine ⟨?_, ?_, by omega, by omega⟩
  · rw [hsent, sendPacketBytes_length]
  · rw [hsent, sendPacketBytes_take4]
    have h1 : (4 + 4 + command.length + 2) % 4294967296 = 10 + command.length := by
      omega
    rw [h1, leDecList_le32 _ (by omega)]
    unfold int32OfNat
    rw [if_pos (by omega)]

/-- C2 amended witness: a 3-byte command is sent inside a 17-byte buffer
whose declared size field is 13. -/
theorem executeCommand_accepted_size_bound_witness :
    (executeCommand cfgEx [115, 97, 121] []).sent.length = 17 ∧
      int32OfNat (leDecList ((executeCommand cfgEx [115, 97, 121] []).sent.take 4)) =
        (13 : Int) ∧
      (3 : Nat) ≤ 4095 ∧ (13 : Nat) ≤ 4105 := by
  have h := executeCommand_accepted_size_bound cfgEx [115, 97, 121] []
    (by norm_num)
  simpa using h

/-- C5: Every packet sent by `Authenticate` and by `ExecuteCommand`
carries the fixed correlation identifier 0xBADC0DE in its id field, and a
successfully decoded response whose id differs from it makes
`ExecuteCommand` fail with the invalid-response-id error without
displaying the response body. -/
theorem correlation_id_invariant (cfg : Config) (command s : List Nat)
    (hcmd : command.length < 4096) :
    int32OfNat (leDecList (((authenticate cfg s).sent.drop 4).take 4)) = rconPID ∧
      int32OfNat (leDecList
        (((executeCommand cfg command s).sent.drop 4).take 4)) = rconPID ∧
      (∀ resp rest, (receivePacket s).1 = .ok (resp, rest) → resp.ID ≠ rconPID →
        (executeCommand cfg command s).result = .error .invalidResponseID ∧
        (executeCommand cfg command s).displayed = none) := by
  have hpid : int32OfNat (leDecList (le32 (uint32Of rconPID))) = rconPID := by
    rw [leDecList_le32 _ (uint32Of_lt rconPID)]
    exact int32_uint32_id rconPID (by norm_num [rconPID]) (by norm_num [rconPID])
  have hauth : (authenticate cfg s).sent =
      sendPacketBytes rconPID rconAuthenticate cfg.Password := by
    unfold authenticate
    rcases hr : receivePacket s with ⟨res, evs⟩
    cases res with
    | error e => rfl
    | ok pr =>
      rcases pr with ⟨resp, rest⟩
      dsimp only
      split
      · rfl
      · rfl
  refine ⟨?_, ?_, ?_⟩
  · rw [hauth, sendPacketBytes_idfield]
    exact hpid
  · rw [executeCommand_sent cfg command s hcmd, sendPacketBytes_idfield]
    exact hpid
  · intro resp rest hok hid
    unfold executeCommand
    rw [if_neg (by unfold dataBuffSize; omega)]
    rcases hr : receivePacket s with ⟨res, evs⟩
    rw [hr] at hok
    simp only at hok
    subst hok
    dsimp only
    rw [if_pos hid]
    exact ⟨rfl, rfl⟩

/-- C5 witness: a decoded response with id 5 ≠ 0xBADC0DE makes
`ExecuteCommand` fail with invalid-response-id and display nothing, while
the auth and command packets sent carry id 0xBADC0DE. -/
theorem correlation_id_invariant_witness :
    int32OfNat (leDecList
        (((authenticate cfgEx (sendPacketBytes 5 0 [])).sent.drop 4).take 4)) =
      rconPID ∧
      (executeCommand cfgEx [108] (sendPacketBytes 5 0 [])).result =
        .error .invalidResponseID ∧
      (executeCommand cfgEx [108] (sendPacketBytes 5 0 [])).displayed = none := by
  have h := correlation_id_invariant cfgEx [108] (sendPacketBytes 5 0 [])
    (by norm_num)
  have hok : (receivePacket (sendPacketBytes 5 0 [])).1 =
      .ok (⟨10, 5, 0, []⟩, ([] : List Nat)) := by rfl
  have h3 := h.2.2 ⟨10, 5, 0, []⟩ [] hok (by norm_num [rconPID])
  exact ⟨h.1, h3.1, h3.2⟩

/-- C6: For a successfully decoded authentication response,
`Authenticate` fails with the rejection error if and only if the response
id is -1, regardless of type or body; any other id is acceptance. -/
theorem authenticate_rejects_iff_minus_one (cfg : Config) (s : List Nat)
    (resp : RCONPacket) (rest : List Nat)
    (hok : (receivePacket s).1 = .ok (resp, rest)) :
    ((authenticate cfg s).result = .error .rejected ↔ resp.ID = -1) ∧
      (resp.ID ≠ -1 → (authenticate cfg s).result = .ok ()) := by
  unfold authenticate
  rcases hr : receivePacket s with ⟨res, evs⟩
  rw [hr] at hok
  simp only at hok
  subst hok
  dsimp only
  by_cases hid : resp.ID = -1
  · rw [if_pos hid]
    exact ⟨⟨fun _ => hid, fun _ => rfl⟩, fun hne => absurd hid hne⟩
  · rw [if_neg hid]
    refine ⟨⟨fun hcontra => ?_, fun h1 => absurd h1 hid⟩, fun _ => rfl⟩
    exact absurd hcontra (by simp)

/-- C6 witness: a decoded response with id -1, type 2 and a nonempty body
is rejected; the same exchange with id 7 is accepted. -/
theorem authenticate_rejects_iff_minus_one_witness :
    (authenticate cfgEx (sendPacketBytes (-1) 2 [110, 111])).result =
      .error .rejected ∧
      (authenticate cfgEx (sendPacketBytes 7 2 [110, 111])).result = .ok () := by
  constructor
  · exact (authenticate_rejects_iff_minus_one cfgEx (sendPacketBytes (-1) 2 [110, 111])
      ⟨12, -1, 2, [110, 111]⟩ [] (by rfl)).1.mpr rfl
  · exact (authenticate_rejects_iff_minus_one cfgEx (sendPacketBytes 7 2 [110, 111])
      ⟨12, 7, 2, [110, 111]⟩ [] (by rfl)).2 (by norm_num)

/-! ### NewRCONClient connect-with-retry (client.go:22-52) -/

/-- Observable actions of the connect-with-retry loop. -/
inductive RetryEv where
  | dialAttempt (i : Nat)
  | sleepPause
  deriving Repr, DecidableEq

/-- The retry loop of `NewRCONClient`, from iteration `i` of
`for i := 0; i < 3; i++`.  `dialF i` is the outcome of the i-th
`net.DialTimeout` call: `none` for success, `some e` for a network error.
Returns `none` on success and `some e` (the connection-failed error
wrapping the last underlying error `e`) when all attempts fail, together
with the trace of dials and 1-second pauses. -/
def connectFrom (dialF : Nat → Option String) (i : Nat) :
    Option String × List RetryEv :=
  if h : i < 3 then
    match dialF i with
    | none => (none, [.dialAttempt i])
    | some e =>
      if i < 2 then
        let r := connectFrom dialF (i + 1)
        (r.1, .dialAttempt i :: .sleepPause :: r.2)
      else
        (some e, [.dialAttempt i])
  else
    (none, [])
termination_by 3 - i

/-- Connection phase of `NewRCONClient`: the loop started at i = 0. -/
def newRCONClientConnect (dialF : Nat → Option String) :
    Option String × List RetryEv :=
  connectFrom dialF 0

/-- C7: The connect loop dials at most 3 times, stops at the first
success, pauses exactly once between consecutive attempts and never after
the final one, and returns the connection-failed error wrapping the last
underlying error exactly when all 3 attempts fail. -/
theorem newRCONClientConnect_retry_policy (dialF : Nat → Option String) :
    (dialF 0 = none →
      newRCONClientConnect dialF = (none, [.dialAttempt 0])) ∧
    (∀ e0, dialF 0 = some e0 → dialF 1 = none →
      newRCONClientConnect dialF =
        (none, [.dialAttempt 0, .sleepPause, .dialAttempt 1])) ∧
    (∀ e0 e1, dialF 0 = some e0 → dialF 1 = some e1 → dialF 2 = none →
      newRCONClientConnect dialF =
        (none, [.dialAttempt 0, .sleepPause, .dialAttempt 1, .sleepPause,
          .dialAttempt 2])) ∧
    (∀ e0 e1 e2, dialF 0 = some e0 → dialF 1 = some e1 → dialF 2 = some e2 →
      newRCONClientConnect dialF =
        (some e2, [.dialAttempt 0, .sleepPause, .dialAttempt 1, .sleepPause,
          .dialAttempt 2])) := by
  refine ⟨?_, ?_, ?_, ?_⟩
  · intro h0
    unfold newRCONClientConnect connectFrom
    rw [h0]
    rfl
  · intro e0 h0 h1
    unfold newRCONClientConnect connectFrom
    rw [h0]
    unfold connectFrom
    rw [h1]
    rfl
  · intro e0 e1 h0 h1 h2
    unfold newRCONClientConnect connectFrom
    rw [h0]
    unfold connectFrom
    rw [h1]
    unfold connectFrom
    rw [h2]
    rfl
  · intro e0 e1 e2 h0 h1 h2
    unfold newRCONClientConnect connectFrom
    rw [h0]
    unfold connectFrom
    rw [h1]
    unfold connectFrom
    rw [h2]
    rfl

/-- C7 witness: with the first two dials refused and the third accepted,
the loop succeeds after exactly three dials and two pauses; with all
dials refused it fails wrapping the last error. -/
theorem newRCONClientConnect_retry_policy_witness :
    newRCONClientConnect (fun i => if i < 2 then some "refused" else none) =
      (none, [.dialAttempt 0, .sleepPause, .dialAttempt 1, .sleepPause,
        .dialAttempt 2]) ∧
    newRCONClientConnect (fun _ => some "refused") =
      (some "refused", [.dialAttempt 0, .sleepPause, .dialAttempt 1,
        .sleepPause, .dialAttempt 2]) := by
  constructor
  · exact (newRCONClientConnect_retry_policy
      (fun i => if i < 2 then some "refused" else none)).2.2.1
      "refused" "refused" rfl rfl rfl
  · exact (newRCONClientConnect_retry_policy
      (fun _ => some "refused")).2.2.2 "refused" "refused" "refused" rfl rfl rfl

/-! ### extractCommands and RunCommands (client.go:160-179, 239-263) -/

/-- Go argument strings, modelled as their character lists (so that all
comparisons compute). -/
abbrev GoStr := List Char

/-- Go's check that arg starts with "-": the first character is '-'. -/
def startsWithDash : GoStr → Bool
  | '-' :: _ => true
  | _ => false

/-- The loop body of `extractCommands` (client.go:239-263): `i` is the
index of the current argument in the full list, `skipNext` the flag-value
skipping state.  Flags taking arguments set `skipNext`; any argument at
index 0 is skipped by the `i > 0` guard. -/
def extractAux : List GoStr → Nat → Bool → List GoStr
  | [], _, _ => []
  | arg :: rest, i, skipNext =>
    if skipNext then
      extractAux rest (i + 1) false
    else if startsWithDash arg then
      extractAux rest (i + 1)
        (arg == "-H".toList || arg == "-P".toList || arg == "-p".toList ||
          arg == "-w".toList)
    else if 0 < i then
      arg :: extractAux rest (i + 1) skipNext
    else
      extractAux rest (i + 1) skipNext

/-- Function `extractCommands(args)` (client.go:239-263). -/
def extractCommands (args : List GoStr) : List GoStr := extractAux args 0 false

/-- Observable actions of the `RunCommands` batch loop. -/
inductive BatchEv where
  | execCmd (cmd : GoStr) (ok : Bool)
  | sleepWait
  deriving Repr, DecidableEq

/-- The loop of `RunCommands` (client.go:160-179) over an extracted
command list, with `ExecuteCommand` abstracted as a state-passing
collaborator `execF` (`none` = command failed).  On failure it reports the
error and returns exit status 1 at once; after a success it sleeps
`cfg.WaitSeconds` seconds if another command remains and the wait is
positive. -/
def runCommandsAux {σ : Type} (execF : σ → GoStr → Option σ) (cfg : Config) :
    σ → List GoStr → Nat × List BatchEv × σ
  | st, [] => (0, [], st)
  | st, c :: rest =>
    match execF st c with
    | none => (1, [.execCmd c false], st)
    | some st1 =>
      let r := runCommandsAux execF cfg st1 rest
      if 0 < rest.length ∧ 0 < cfg.WaitSeconds then
        (r.1, .execCmd c true :: .sleepWait :: r.2.1, r.2.2)
      else
        (r.1, .execCmd c true :: r.2.1, r.2.2)

/-- Method `RunCommands(args)`: extract the commands, then run the loop (the
`len(commands) == 0` early return coincides with the loop's base case). -/
def runCommands {σ : Type} (execF : σ → GoStr → Option σ) (cfg : Config)
    (st : σ) (args : List GoStr) : Nat × List BatchEv × σ :=
  runCommandsAux execF cfg st (extractCommands args)

/-- The executed commands (with their outcomes), in order, of a batch trace. -/
def execEvents : List BatchEv → List (GoStr × Bool)
  | [] => []
  | .execCmd c ok :: rest => (c, ok) :: execEvents rest
  | .sleepWait :: rest => execEvents rest

theorem runCommandsAux_spec {σ : Type} (execF : σ → GoStr → Option σ) (cfg : Config) :
    ∀ (cmds : List GoStr) (st : σ) (code : Nat) (tr : List BatchEv) (stf : σ),
      runCommandsAux execF cfg st cmds = (code, tr, stf) →
      ((execEvents tr).map Prod.fst = cmds.take (execEvents tr).length) ∧
      (tr = if 0 < cfg.WaitSeconds then
          List.intersperse .sleepWait
            ((execEvents tr).map fun p => BatchEv.execCmd p.1 p.2)
        else (execEvents tr).map fun p => BatchEv.execCmd p.1 p.2) ∧
      (code = 0 ∨ code = 1) ∧
      (code = 0 → (execEvents tr).length = cmds.length ∧
        ∀ p ∈ execEvents tr, p.2 = true) ∧
      (code = 1 → ∃ pre c, execEvents tr = pre ++ [(c, false)] ∧
        ∀ p ∈ pre, p.2 = true) ∧
      (cmds ≠ [] → execEvents tr ≠ []) := by
  intro cmds
  induction cmds with
  | nil =>
    intro st code tr stf h
    simp only [runCommandsAux, Prod.mk.injEq] at h
    obtain ⟨h1, h2, h3⟩ := h
    subst h1
    subst h2
    refine ⟨by simp [execEvents], by simp [execEvents, List.intersperse], Or.inl rfl,
      fun _ => ⟨by simp [execEvents], by simp [execEvents]⟩,
      fun hcode => by omega, fun hne => absurd rfl hne⟩
  | cons c rest ih =>
    intro st code tr stf h
    simp only [runCommandsAux] at h
    cases hex : execF st c with
    | none =>
      rw [hex] at h
      simp only [Prod.mk.injEq] at h
      obtain ⟨h1, h2, h3⟩ := h
      subst h1
      subst h2
      refine ⟨by simp [execEvents], ?_, Or.inr rfl, fun hcode => by omega,
        fun _ => ⟨[], c, by simp [execEvents], by simp⟩,
        fun _ => by simp [execEvents]⟩
      split <;> simp [execEvents, List.intersperse]
    | some st1 =>
      rw [hex] at h
      dsimp only at h
      rcases hr : runCommandsAux execF cfg st1 rest with ⟨rc, rtr, rst⟩
      rw [hr] at h
      obtain ⟨ih1, ih2, ih3, ih4, ih5, ih6⟩ := ih st1 rc rtr rst hr
      by_cases hif : 0 < rest.length ∧ 0 < cfg.WaitSeconds
      · rw [if_pos hif] at h
        simp only [Prod.mk.injEq] at h
        obtain ⟨h1, h2, h3⟩ := h
        subst h1
        subst h2
        have hrne : rest ≠ [] := by
          intro hcon
          rw [hcon] at hif
          simp at hif
        have hesne : execEvents rtr ≠ [] := ih6 hrne
        refine ⟨?_, ?_, ih3, ?_, ?_, fun _ => by simp [execEvents]⟩
        · simp only [execEvents, List.map_cons, List.length_cons]
          rw [List.take_succ_cons, ih1]
        · simp only [execEvents, List.map_cons]
          rw [if_pos hif.2] at ih2 ⊢
          rcases hmap : (execEvents rtr).map (fun p => BatchEv.execCmd p.1 p.2) with
            _ | ⟨y, l2⟩
          · exact absurd (List.map_eq_nil_iff.mp hmap) hesne
          · rw [hmap] at ih2
            rw [hmap, List.intersperse_cons_cons, ← ih2]
        · intro hcode
          obtain ⟨hlen, hall⟩ := ih4 hcode
          refine ⟨by simp [execEvents, hlen], ?_⟩
          intro p hp
          simp only [execEvents, List.mem_cons] at hp
          rcases hp with rfl | hp
          · rfl
          · exact hall p hp
        · intro hcode
          obtain ⟨pre, cf, hsplit, hall⟩ := ih5 hcode
          refine ⟨(c, true) :: pre, cf, ?_, ?_⟩
          · simp [execEvents, hsplit]
          · intro p hp
            rcases List.mem_cons.mp hp with rfl | hp
            · rfl
            · exact hall p hp
      · rw [if_neg hif] at h
        simp only [Prod.mk.injEq] at h
        obtain ⟨h1, h2, h3⟩ := h
        subst h1
        subst h2
        refine ⟨?_, ?_, ih3, ?_, ?_, fun _ => by simp [execEvents]⟩
        · simp only [execEvents, List.map_cons, List.length_cons]
          rw [List.take_succ_cons, ih1]
        · simp only [execEvents, List.map_cons]
          by_cases hw : 0 < cfg.WaitSeconds
          · have hrest : rest.length = 0 := by
              rcases Nat.eq_zero_or_pos rest.length with h0 | hpos
              · exact h0
              · exact absurd ⟨hpos, hw⟩ hif
            have hrnil : rest = [] := List.length_eq_zero.mp hrest
            subst hrnil
            simp only [runCommandsAux, Prod.mk.injEq] at hr
            obtain ⟨hrc, hrtr, hrst⟩ := hr
            rw [if_pos hw]
            rw [← hrtr]
            simp [execEvents, List.intersperse]
          · rw [if_neg hw] at ih2 ⊢
            rw [← ih2]
        · intro hcode
          obtain ⟨hlen, hall⟩ := ih4 hcode
          refine ⟨by simp [execEvents, hlen], ?_⟩
          intro p hp
          simp only [execEvents, List.mem_cons] at hp
          rcases hp with rfl | hp
          · rfl
          · exact hall p hp
        · intro hcode
          obtain ⟨pre, cf, hsplit, hall⟩ := ih5 hcode
          refine ⟨(c, true) :: pre, cf, ?_, ?_⟩
          · simp [execEvents, hsplit]
          · intro p hp
            rcases List.mem_cons.mp hp with rfl | hp
            · rfl
            · exact hall p hp

/-- C8: `RunCommands` executes the extracted commands strictly
sequentially in list order (the executed commands are a prefix of the
command list), with the configured positive delay exactly between
successive command executions and never after the last; it stops at the
first failing command, executing none of the remaining ones, and returns
exit status 1; if every command succeeds it executes them all and returns
exit status 0. -/
theorem runCommands_batch_semantics {σ : Type} (execF : σ → GoStr → Option σ)
    (cfg : Config) (st : σ) (args : List GoStr) (code : Nat)
    (tr : List BatchEv) (stf : σ)
    (h : runCommands execF cfg st args = (code, tr, stf)) :
    ((execEvents tr).map Prod.fst =
      (extractCommands args).take (execEvents tr).length) ∧
      (tr = if 0 < cfg.WaitSeconds then
          List.intersperse .sleepWait
            ((execEvents tr).map fun p => BatchEv.execCmd p.1 p.2)
        else (execEvents tr).map fun p => BatchEv.execCmd p.1 p.2) ∧
      (code = 0 ∨ code = 1) ∧
      (code = 0 → (execEvents tr).length = (extractCommands args).length ∧
        ∀ p ∈ execEvents tr, p.2 = true) ∧
      (code = 1 → ∃ pre c, execEvents tr = pre ++ [(c, false)] ∧
        ∀ p ∈ pre, p.2 = true) := by
  obtain ⟨h1, h2, h3, h4, h5, _⟩ :=
    runCommandsAux_spec execF cfg (extractCommands args) st code tr stf h
  exact ⟨h1, h2, h3, h4, h5⟩

/-- C8 witness: batch ["first", "say", "boom", "never"] with wait 2 and a
collaborator failing on "boom" runs "say", sleeps once, fails on "boom",
runs nothing further, and exits 1. -/
theorem runCommands_batch_semantics_witness :
    runCommands
        (fun (st : Nat) (c : GoStr) =>
          if c == "boom".toList then none else some (st + 1))
        ⟨"h", "p", [], false, false, false, false, 2⟩ 0
        ["first".toList, "say".toList, "boom".toList, "never".toList] =
      (1, [BatchEv.execCmd "say".toList true, BatchEv.sleepWait,
        BatchEv.execCmd "boom".toList false], 1) ∧
    ∃ pre c, execEvents [BatchEv.execCmd "say".toList true, BatchEv.sleepWait,
        BatchEv.execCmd "boom".toList false] = pre ++ [(c, false)] ∧
      ∀ p ∈ pre, p.2 = true := by
  refine ⟨by decide, ?_⟩
  exact (runCommands_batch_semantics
    (fun (st : Nat) (c : GoStr) =>
      if c == "boom".toList then none else some (st + 1))
    ⟨"h", "p", [], false, false, false, false, 2⟩ 0
    ["first".toList, "say".toList, "boom".toList, "never".toList] 1
    [BatchEv.execCmd "say".toList true, BatchEv.sleepWait,
      BatchEv.execCmd "boom".toList false] 1 (by decide)).2.2.2.2 rfl

/-- C10: `extractCommands` unconditionally skips index 0, so the first
element of the (already program-name-stripped) argument list passed to
`RunCommands` is never executed as a command even when it does not begin
with "-": the outcome is independent of the content of a non-flag first
argument, and a batch whose only argument is one non-flag command
executes nothing and exits 0. -/
theorem runCommands_drops_first_argument {σ : Type}
    (execF : σ → GoStr → Option σ) (cfg : Config) (st : σ)
    (a b : GoStr) (rest : List GoStr)
    (ha : startsWithDash a = false) (hb : startsWithDash b = false) :
    extractCommands (a :: rest) = extractCommands (b :: rest) ∧
      runCommands execF cfg st (a :: rest) = runCommands execF cfg st (b :: rest) ∧
      runCommands execF cfg st [a] = (0, [], st) := by
  have key : ∀ (x : GoStr) (tail : List GoStr), startsWithDash x = false →
      extractCommands (x :: tail) = extractAux tail 1 false := by
    intro x tail hx
    simp only [extractCommands, extractAux, hx, Bool.false_eq_true, if_false,
      Nat.lt_irrefl]
  have hab : extractCommands (a :: rest) = extractCommands (b :: rest) :=
    (key a rest ha).trans (key b rest hb).symm
  refine ⟨hab, ?_, ?_⟩
  · unfold runCommands
    rw [hab]
  · unfold runCommands
    rw [key a [] ha]
    rfl

/-- C10 witness: a leading non-flag command "say hello" is interchangeable
with "save-all" (both are dropped), and a batch consisting only of
"say hello" executes nothing and exits 0. -/
theorem runCommands_drops_first_argument_witness :
    extractCommands ["say hello".toList, "-t".toList, "stop".toList] =
      extractCommands ["save-all".toList, "-t".toList, "stop".toList] ∧
    runCommands (fun (st : Nat) _ => some (st + 1)) cfgEx 0
      ["say hello".toList] = (0, [], 0) := by
  have h := runCommands_drops_first_argument
    (fun (st : Nat) _ => some (st + 1)) cfgEx 0
    "say hello".toList "save-all".toList ["-t".toList, "stop".toList]
    (by decide) (by decide)
  exact ⟨h.1, h.2.2⟩

end MCRcon
